import Mathlib

/-!
A shallow embedding of the core of the Lyps interpreter
(src/LypsAST.py, src/SymbolTable.py, src/LypsInterpreter.py).

Modelling conventions, stated once here:

* Python arbitrary-precision ints are `Int`, `fractions.Fraction` is `Rat`
  (both are exact in Python, so this is faithful).
* Python floats are `PFloat`: a finite float carries its exact rational
  value, and the special values `inf`, `-inf`, `nan` are separate
  constructors.  Claims below only ever inspect floats whose values are
  exactly representable in binary64 (0.0, 2.5, nan, ...), where IEEE-754
  arithmetic and comparison agree with the exact model; general rounding
  is outside the model and no theorem in this file depends on it.
* `LList` carries a `canon : Bool` flag: `true` marks the one interned
  `LNULL` object created in `constructPrimitives`.  This models the
  Python identity tests `arg is LNULL` (used by `LP_and` / `LP_or`);
  `LList.__eq__` ignores identity and so does `pyEq` below.
* `LMap`, `LFunction` and `LMacro` values are not modelled: no claim in
  this development touches maps, user functions or user macros, and the
  corresponding evaluator branches are omitted.  `LPrimitive` objects
  are modelled as a name tag (`LVal.prim`); the primitive table is the
  `applyPrim` dispatcher below.
* Python `None` (which `_lEval` maps to a fresh empty `LList`) cannot
  reach the primitives modelled here, so it has no constructor; the
  dead `arg is None` tests of `LP_not` / `LP_and` / `LP_or` are
  therefore dropped.
* Mutation of the environment chain is modelled by state passing: every
  evaluator function returns the updated chain.  Exceptions are
  `Except.error`; distinct Python exception classes and their message
  formatting (`LypsRuntimeFuncError` adds the primitive name and usage
  string) are collapsed to a message string.
-/

namespace Lyps

/-- Python float values: a finite float (carried exactly as a rational),
the two infinities, and nan. -/
inductive PFloat where
  | fin (q : ℚ)
  | pinf
  | ninf
  | nan
deriving DecidableEq, Repr

/-- The Lyps runtime value, from src/LypsAST.py: Python `int`,
`fractions.Fraction`, `float`, `str`, `LSymbol`, `LList` (with the
`canon` flag marking the interned `LNULL` object, see the header), and
`LPrimitive` (as its registry name). -/
inductive LVal where
  | int (n : ℤ)
  | frac (q : ℚ)
  | flt (f : PFloat)
  | str (s : String)
  | sym (s : String)
  | list (canon : Bool) (elems : List LVal)
  | prim (name : String)
deriving Repr

mutual

/-- Structural (Lean) equality test for `LVal`, used only to build
`DecidableEq LVal`; this is not the Python `==` (see `pyEq`). -/
def lvalBEq : LVal → LVal → Bool
  | .int a, .int b => a == b
  | .frac a, .frac b => a == b
  | .flt a, .flt b => a == b
  | .str a, .str b => a == b
  | .sym a, .sym b => a == b
  | .prim a, .prim b => a == b
  | .list c xs, .list d ys => c == d && lvalBEqList xs ys
  | _, _ => false

/-- Elementwise `lvalBEq` on lists. -/
def lvalBEqList : List LVal → List LVal → Bool
  | [], [] => true
  | x :: xs, y :: ys => lvalBEq x y && lvalBEqList xs ys
  | _, _ => false

end

mutual

theorem lvalBEq_iff : ∀ a b, lvalBEq a b = true ↔ a = b
  | .int _, .int _ => by simp [lvalBEq]
  | .frac _, .frac _ => by simp [lvalBEq]
  | .flt _, .flt _ => by simp [lvalBEq]
  | .str _, .str _ => by simp [lvalBEq]
  | .sym _, .sym _ => by simp [lvalBEq]
  | .prim _, .prim _ => by simp [lvalBEq]
  | .list _ xs, .list _ ys => by simp [lvalBEq, lvalBEqList_iff xs ys]
  | .int _, .frac _ => by simp [lvalBEq]
  | .int _, .flt _ => by simp [lvalBEq]
  | .int _, .str _ => by simp [lvalBEq]
  | .int _, .sym _ => by simp [lvalBEq]
  | .int _, .list _ _ => by simp [lvalBEq]
  | .int _, .prim _ => by simp [lvalBEq]
  | .frac _, .int _ => by simp [lvalBEq]
  | .frac _, .flt _ => by simp [lvalBEq]
  | .frac _, .str _ => by simp [lvalBEq]
  | .frac _, .sym _ => by simp [lvalBEq]
  | .frac _, .list _ _ => by simp [lvalBEq]
  | .frac _, .prim _ => by simp [lvalBEq]
  | .flt _, .int _ => by simp [lvalBEq]
  | .flt _, .frac _ => by simp [lvalBEq]
  | .flt _, .str _ => by simp [lvalBEq]
  | .flt _, .sym _ => by simp [lvalBEq]
  | .flt _, .list _ _ => by simp [lvalBEq]
  | .flt _, .prim _ => by simp [lvalBEq]
  | .str _, .int _ => by simp [lvalBEq]
  | .str _, .frac _ => by simp [lvalBEq]
  | .str _, .flt _ => by simp [lvalBEq]
  | .str _, .sym _ => by simp [lvalBEq]
  | .str _, .list _ _ => by simp [lvalBEq]
  | .str _, .prim _ => by simp [lvalBEq]
  | .sym _, .int _ => by simp [lvalBEq]
  | .sym _, .frac _ => by simp [lvalBEq]
  | .sym _, .flt _ => by simp [lvalBEq]
  | .sym _, .str _ => by simp [lvalBEq]
  | .sym _, .list _ _ => by simp [lvalBEq]
  | .sym _, .prim _ => by simp [lvalBEq]
  | .list _ _, .int _ => by simp [lvalBEq]
  | .list _ _, .frac _ => by simp [lvalBEq]
  | .list _ _, .flt _ => by simp [lvalBEq]
  | .list _ _, .str _ => by simp [lvalBEq]
  | .list _ _, .sym _ => by simp [lvalBEq]
  | .list _ _, .prim _ => by simp [lvalBEq]
  | .prim _, .int _ => by simp [lvalBEq]
  | .prim _, .frac _ => by simp [lvalBEq]
  | .prim _, .flt _ => by simp [lvalBEq]
  | .prim _, .str _ => by simp [lvalBEq]
  | .prim _, .sym _ => by simp [lvalBEq]
  | .prim _, .list _ _ => by simp [lvalBEq]

theorem lvalBEqList_iff : ∀ xs ys, lvalBEqList xs ys = true ↔ xs = ys
  | [], [] => by simp [lvalBEqList]
  | x :: xs, y :: ys => by
      simp [lvalBEqList, lvalBEq_iff x y, lvalBEqList_iff xs ys]
  | [], _ :: _ => by simp [lvalBEqList]
  | _ :: _, [] => by simp [lvalBEqList]

end

instance : DecidableEq LVal := fun a b => decidable_of_iff _ (lvalBEq_iff a b)

/-- The numeric reading a Python value presents to `==` and to the
arithmetic primitives: `int`, `Fraction` and finite `float` all denote
exact rationals; the float specials stay apart. -/
inductive NumV where
  | q (x : ℚ)
  | pinf
  | ninf
  | nan
deriving DecidableEq, Repr

/-- Numeric view of a value (`None` for non-numbers). -/
def numVal : LVal → Option NumV
  | .int n => some (.q n)
  | .frac x => some (.q x)
  | .flt (.fin x) => some (.q x)
  | .flt .pinf => some .pinf
  | .flt .ninf => some .ninf
  | .flt .nan => some .nan
  | _ => none

/-- Python numeric `==`: exact cross-kind comparison; `nan` compares
unequal to everything, including itself. -/
def numEq : NumV → NumV → Bool
  | .q x, .q y => x == y
  | .pinf, .pinf => true
  | .ninf, .ninf => true
  | _, _ => false

mutual

/-- Python `==` on Lyps values.  Strings, symbols (`LSymbol.__eq__`)
and primitives compare within their own kind; `LList.__eq__` compares
length and elements (ignoring identity, hence ignoring `canon`);
numbers compare via the numeric tower, so `1 == Fraction(1) == 1.0`
and `nan` is unequal to itself.  Cross-kind comparisons between the
groups are `False` in Python (reflected `__eq__` failing with
`AttributeError` or returning `NotImplemented`). -/
def pyEq : LVal → LVal → Bool
  | .str s, .str t => s == t
  | .str _, _ => false
  | _, .str _ => false
  | .sym s, .sym t => s == t
  | .sym _, _ => false
  | _, .sym _ => false
  | .prim a, .prim b => a == b
  | .prim _, _ => false
  | _, .prim _ => false
  | .list _ xs, .list _ ys => pyEqList xs ys
  | .list _ _, _ => false
  | _, .list _ _ => false
  | a, b => match numVal a, numVal b with
      | some x, some y => numEq x y
      | _, _ => false

/-- `LList.__eq__`: equal length and pairwise equal elements. -/
def pyEqList : List LVal → List LVal → Bool
  | [], [] => true
  | x :: xs, y :: ys => pyEq x y && pyEqList xs ys
  | _, _ => false

end

/-- Python `!=` on Lyps values.  For every kind in the model Python
derives `__ne__` as the negation of `__eq__` (`LSymbol.__ne__` is
written out in the source but agrees with the negation on this
domain). -/
def pyNe (a b : LVal) : Bool := !(pyEq a b)

/-- Is this value an empty `LList` (any empty list)? -/
def isEmptyL : LVal → Bool
  | .list _ [] => true
  | _ => false

/-- Python `arg is LNULL`: identity with the one interned `LNULL`
object, i.e. the `canon` flag (see the header). -/
def isLNULL : LVal → Bool
  | .list true [] => true
  | _ => false

/-- Is the value tagged as a `fractions.Fraction`? -/
def isFrac : LVal → Bool
  | .frac _ => true
  | _ => false

/-- Python `str()` of a value, on the kinds a modelled claim feeds to
it (symbol names, strings, ints).  Other kinds are never stringified by
the theorems below and are mapped to a fixed marker. -/
def pyStr : LVal → String
  | .sym s => s
  | .str s => s
  | .int n => toString n
  | _ => "<unmodelled-str>"

/-- Python `repr()` of a value, on the kinds a modelled claim feeds to
it (only symbols and ints are needed, by `LP_undef`). -/
def pyRepr : LVal → String
  | .sym s => s
  | .int n => toString n
  | _ => "<unmodelled-repr>"

/-! ## The environment chain (src/SymbolTable.py)

A `SymbolTable` is a frame (a Python dict from name strings to values)
plus a parent.  The chain is modelled innermost-first as a list of
association lists; the global frame is the last entry.  Python dict
insertion keeps one slot per key, which `frameSet` mirrors. -/

/-- One scope frame: the `_locals` dict. -/
abbrev Frame := List (String × LVal)

/-- The chain of scopes, innermost first. -/
abbrev Env := List Frame

/-- Dict lookup in one frame. -/
def frameGet : Frame → String → Option LVal
  | [], _ => none
  | (k, v) :: rest, key => if k = key then some v else frameGet rest key

/-- Dict insert-or-update in one frame (one slot per key). -/
def frameSet : Frame → String → LVal → Frame
  | [], key, v => [(key, v)]
  | (k, w) :: rest, key, v =>
      if k = key then (key, v) :: rest else (k, w) :: frameSet rest key v

/-- `key in self._locals`. -/
def frameHas : Frame → String → Bool
  | [], _ => false
  | (k, _) :: rest, key => k = key || frameHas rest key

/-- `del self._locals[key]` (the key occurs at most once). -/
def frameDel : Frame → String → Frame
  | [], _ => []
  | (k, v) :: rest, key =>
      if k = key then rest else (k, v) :: frameDel rest key

/-- `SymbolTable.getValue`: walk outward, first hit wins, `None` when
the chain has no binding. -/
def getValue : Env → String → Option LVal
  | [], _ => none
  | f :: outer, key =>
      match frameGet f key with
      | some v => some v
      | none => getValue outer key

/-- `SymbolTable.defLocal`: bind in the innermost frame. -/
def defLocal : Env → String → LVal → Env
  | [], key, v => [[(key, v)]]
  | f :: outer, key, v => frameSet f key v :: outer

/-- `SymbolTable.undef`: walk outward and delete the key from the
first frame that contains it. -/
def undef : Env → String → Env
  | [], _ => []
  | f :: outer, key =>
      if frameHas f key then frameDel f key :: outer
      else f :: undef outer key

/-! ## Errors and primitive results -/

/-- Runtime failures: `LypsRuntimeError` / `LypsRuntimeFuncError` and
uncaught Python exceptions are collapsed to a message; `fuelExhausted`
is the artefact of the fuelled evaluator (no Python counterpart). -/
inductive PErr where
  | runtimeErr (msg : String)
  | fuelExhausted
deriving DecidableEq, Repr

/-- Decidable equality of `Except` results, for concrete evaluation
witnesses. -/
instance {ε α : Type} [DecidableEq ε] [DecidableEq α] :
    DecidableEq (Except ε α) := fun a b =>
  match a, b with
  | .ok x, .ok y =>
      if h : x = y then .isTrue (by rw [h])
      else .isFalse (by intro hc; cases hc; exact h rfl)
  | .error x, .error y =>
      if h : x = y then .isTrue (by rw [h])
      else .isFalse (by intro hc; cases hc; exact h rfl)
  | .ok _, .error _ => .isFalse (by intro hc; cases hc)
  | .error _, .ok _ => .isFalse (by intro hc; cases hc)

/-- Result of a pure primitive. -/
abbrev PRes := Except PErr LVal

/-! ## The numeric tower (Python arithmetic on int / Fraction / float)

Python picks the result kind from the widest operand:
int < Fraction < float.  Finite floats are exact in the model (see the
header); arithmetic on `inf` / `nan` operands, and non-numeric operand
combinations (such as Python string concatenation or repetition), are
mapped to an error — no claim exercises them, and inside the
primitives every such error is caught and re-raised as an
`Invalid argument.` runtime error anyway. -/

/-- Kind tags of the numeric tower, ordered int < Fraction < float. -/
inductive NTag where
  | tint
  | tfrac
  | tfloat
deriving DecidableEq, Repr

/-- Widest of two kinds. -/
def ntagJoin : NTag → NTag → NTag
  | .tfloat, _ => .tfloat
  | _, .tfloat => .tfloat
  | .tfrac, _ => .tfrac
  | _, .tfrac => .tfrac
  | .tint, .tint => .tint

/-- Kind and exact value of a finite number. -/
def numOf : LVal → Option (NTag × ℚ)
  | .int n => some (.tint, n)
  | .frac x => some (.tfrac, x)
  | .flt (.fin x) => some (.tfloat, x)
  | _ => none

/-- Repack a result in the given kind.  The `tint` case is only ever
applied to integral rationals (sums, differences, products and floor
divisions of integers), where `q.num` is the value. -/
def mkNum : NTag → ℚ → LVal
  | .tint, x => .int x.num
  | .tfrac, x => .frac x
  | .tfloat, x => .flt (.fin x)

/-- Python `x + y` on numbers. -/
def pyAdd (a b : LVal) : PRes :=
  match numOf a, numOf b with
  | some (t1, x), some (t2, y) => .ok (mkNum (ntagJoin t1 t2) (x + y))
  | _, _ => .error (.runtimeErr "Invalid argument.")

/-- Python `x - y` on numbers. -/
def pySub (a b : LVal) : PRes :=
  match numOf a, numOf b with
  | some (t1, x), some (t2, y) => .ok (mkNum (ntagJoin t1 t2) (x - y))
  | _, _ => .error (.runtimeErr "Invalid argument.")

/-- Python `x * y` on numbers. -/
def pyMul (a b : LVal) : PRes :=
  match numOf a, numOf b with
  | some (t1, x), some (t2, y) => .ok (mkNum (ntagJoin t1 t2) (x * y))
  | _, _ => .error (.runtimeErr "Invalid argument.")

/-- Python true division `x / y`: division of two ints yields a float,
a Fraction operand (without a float) yields a Fraction, a float operand
yields a float; a zero divisor raises `ZeroDivisionError`. -/
def pyDiv (a b : LVal) : PRes :=
  match numOf a, numOf b with
  | some (t1, x), some (t2, y) =>
      if y = 0 then .error (.runtimeErr "Invalid argument.")
      else
        match t1, t2 with
        | .tfloat, _ => .ok (.flt (.fin (x / y)))
        | _, .tfloat => .ok (.flt (.fin (x / y)))
        | .tint, .tint => .ok (.flt (.fin (x / y)))
        | _, _ => .ok (.frac (x / y))
  | _, _ => .error (.runtimeErr "Invalid argument.")

/-- Python floor division `x // y`: `Int.fdiv` on two ints (Python
floors toward minus infinity); on other finite numbers the floor of
the exact quotient, as a float when a float operand is present and as
an int otherwise (`Fraction.__floordiv__` returns an int). -/
def pyFloorDiv (a b : LVal) : PRes :=
  match a, b with
  | .int m, .int n =>
      if n = 0 then .error (.runtimeErr "Invalid argument.")
      else .ok (.int (Int.fdiv m n))
  | _, _ =>
      match numOf a, numOf b with
      | some (t1, x), some (t2, y) =>
          if y = 0 then .error (.runtimeErr "Invalid argument.")
          else
            match ntagJoin t1 t2 with
            | .tfloat => .ok (.flt (.fin (⌊x / y⌋ : ℤ)))
            | _ => .ok (.int ⌊x / y⌋)
      | _, _ => .error (.runtimeErr "Invalid argument.")

/-- Python `x % y`: `Int.fmod` on two ints (the remainder takes the
sign of the divisor); on other finite numbers `x - y * floor(x / y)`
in the joined kind. -/
def pyMod (a b : LVal) : PRes :=
  match a, b with
  | .int m, .int n =>
      if n = 0 then .error (.runtimeErr "Invalid argument.")
      else .ok (.int (Int.fmod m n))
  | _, _ =>
      match numOf a, numOf b with
      | some (t1, x), some (t2, y) =>
          if y = 0 then .error (.runtimeErr "Invalid argument.")
          else .ok (mkNum (ntagJoin t1 t2) (x - y * (⌊x / y⌋ : ℤ)))
      | _, _ => .error (.runtimeErr "Invalid argument.")

/-- Left fold of a fallible binary operation, the engine of
`functools.reduce`. -/
def pyFoldl (op : LVal → LVal → PRes) (acc : LVal) : List LVal → PRes
  | [] => .ok acc
  | y :: ys => do pyFoldl op (← op acc y) ys

/-- `functools.reduce` of a binary operation over a non-empty argument
list (the primitives guard emptiness before calling it). -/
def pyReduce (op : LVal → LVal → PRes) : List LVal → PRes
  | [] => .error (.runtimeErr "Invalid argument.")
  | x :: xs => pyFoldl op x xs

/-- Python `sum(args)`: a fold of `+` starting from the int `0`. -/
def pySum (args : List LVal) : PRes := pyFoldl pyAdd (.int 0) args

/-! ## Pure primitives (src/LypsInterpreter.py, `constructPrimitives`)

Each `LP_*` definition below transliterates the Python function of the
same name.  Primitives that read or write the environment take and
return an `Env`; primitives that re-enter the evaluator are defined in
the mutual block further down. -/

/-- `LP_defLocal` (`def!`): two arguments, bind `str(key)` in the
innermost frame, return the value.  (The `LFunction` renaming branch
is dead here: user functions are outside the model.) -/
def LP_defLocal (env : Env) (args : List LVal) : Except PErr (LVal × Env) :=
  match args with
  | [key, val] => .ok (val, defLocal env (pyStr key) val)
  | _ => .error (.runtimeErr "2 arguments expected.")

/-- `LP_undef` (`undef!`): one argument expected, but the source binds
`key = args` — the whole Python argument tuple — and deletes
`str(key)`, which is the string `(repr(arg),)`, from the first frame
containing it; returns `LNULL`. -/
def LP_undef (env : Env) (args : List LVal) : Except PErr (LVal × Env) :=
  match args with
  | [arg] =>
      .ok (.list true [], undef env ("(" ++ pyRepr arg ++ ",)"))
  | _ => .error (.runtimeErr "1 argument exptected.")

/-- `LP_quote` (`quote`): return the single argument form unevaluated. -/
def LP_quote (args : List LVal) : PRes :=
  match args with
  | [e] => .ok e
  | _ => .error (.runtimeErr "1 argument exptected.")

/-- `LP_list` (`list`): one or more evaluated arguments, returned as a
fresh list. -/
def LP_list (args : List LVal) : PRes :=
  match args with
  | [] => .error (.runtimeErr "1 or more arguments expected.")
  | _ => .ok (.list false args)

/-- `LP_first` (`first`): head of a list; the `IndexError` on an empty
list is caught and a fresh empty list returned. -/
def LP_first (args : List LVal) : PRes :=
  match args with
  | [theList] =>
      match theList with
      | .list _ [] => .ok (.list false [])
      | .list _ (x :: _) => .ok x
      | _ => .error (.runtimeErr "1st argument expected to be a list.")
  | _ => .error (.runtimeErr "1 argument expected.")

/-- `LP_rest` (`rest`): `LList.rest`, a fresh list of all but the
first element, and a fresh empty list when fewer than two elements.
(A non-list argument raises an uncaught Python `AttributeError`; the
arity branch raises a `TypeError` from a stray keyword argument — both
are errors here.) -/
def LP_rest (args : List LVal) : PRes :=
  match args with
  | [theList] =>
      match theList with
      | .list _ els =>
          if els.length < 2 then .ok (.list false [])
          else .ok (.list false els.tail)
      | _ => .error (.runtimeErr "AttributeError: rest")
  | _ => .error (.runtimeErr "1 argument expected.")

/-- `LP_cons` (`cons`): copy the list argument and insert the object
at index 0; the list argument itself is left untouched (the copy is a
fresh, non-canonical list). -/
def LP_cons (args : List LVal) : PRes :=
  match args with
  | [arg1, arg2] =>
      match arg2 with
      | .list _ els => .ok (.list false (arg1 :: els))
      | _ => .error (.runtimeErr "Invalid argument.")
  | _ => .error (.runtimeErr "2 arguments exptected.")

/-- `LP_add` (`+`): one or more arguments, Python `sum`. -/
def LP_add (args : List LVal) : PRes :=
  if args.length < 1 then .error (.runtimeErr "1 or more arguments expected.")
  else pySum args

/-- `LP_sub` (`-`): unary negation (`-1 * x`) for one argument, else a
left-to-right fold of subtraction. -/
def LP_sub (args : List LVal) : PRes :=
  if args.length < 1 then .error (.runtimeErr "1 or more arguments expected.")
  else
    match args with
    | [x] => pyMul (.int (-1)) x
    | _ => pyReduce pySub args

/-- `LP_mul` (`*`): two or more arguments, folded product. -/
def LP_mul (args : List LVal) : PRes :=
  if args.length < 2 then .error (.runtimeErr "2 or more arguments exptected.")
  else pyReduce pyMul args

/-- `LP_div` (`/`): two or more arguments, folded true division. -/
def LP_div (args : List LVal) : PRes :=
  if args.length < 2 then .error (.runtimeErr "2 or more arguments exptected.")
  else pyReduce pyDiv args

/-- `LP_intdiv` (`//`): exactly two arguments, Python floor division. -/
def LP_intdiv (args : List LVal) : PRes :=
  match args with
  | [a, b] => pyFloorDiv a b
  | _ => .error (.runtimeErr "2 arguments expected.")

/-- `LP_moddiv` (`mod`): exactly two arguments, Python `%`. -/
def LP_moddiv (args : List LVal) : PRes :=
  match args with
  | [a, b] => pyMod a b
  | _ => .error (.runtimeErr "2 arguments expected.")

/-- `all consecutive pairs satisfy r`: the loop shared by the variadic
relational primitives. -/
def chainAll (r : LVal → LVal → Bool) : List LVal → Bool
  | [] => true
  | [_] => true
  | a :: b :: rest => r a b && chainAll r (b :: rest)

/-- `LP_equal` (`=`): two or more arguments; 1 if every consecutive
pair is Python `==`-equal, else 0. -/
def LP_equal (args : List LVal) : PRes :=
  if args.length < 2 then .error (.runtimeErr "2 or more arguments expected.")
  else .ok (.int (bif chainAll pyEq args then 1 else 0))

/-- `LP_notEqual` (`<>`): two or more arguments; 1 if every consecutive
pair is Python `!=`-unequal, else 0. -/
def LP_notEqual (args : List LVal) : PRes :=
  if args.length < 2 then .error (.runtimeErr "2 or more arguments expected.")
  else .ok (.int (bif chainAll pyNe args then 1 else 0))

/-- `LP_not` (`not`): 1 when the argument is Python `== 0` (which the
integer 0, the float 0.0 and the rational 0 all are) or is any empty
`LList`, else 0.  (The `arg is None` disjunct is dead, see header.) -/
def LP_not (args : List LVal) : PRes :=
  match args with
  | [arg1] => .ok (.int (bif pyEq arg1 (.int 0) || isEmptyL arg1 then 1 else 0))
  | _ => .error (.runtimeErr "1 argument exptected.")

/-- `LP_and` (`and`): two or more arguments; 0 as soon as an argument
is Python `== 0` or is the interned `LNULL` object itself (identity,
not any empty list), else 1. -/
def LP_and (args : List LVal) : PRes :=
  if args.length < 2 then .error (.runtimeErr "2 or more arguments exptected.")
  else .ok (.int (bif args.any (fun a => pyEq a (.int 0) || isLNULL a) then 0 else 1))

/-- `LP_or` (`or`): two or more arguments; 1 as soon as an argument is
neither Python `== 0` nor the interned `LNULL` object, else 0. -/
def LP_or (args : List LVal) : PRes :=
  if args.length < 2 then .error (.runtimeErr "2 or more arguments exptected.")
  else .ok (.int (bif args.any (fun a => !(pyEq a (.int 0) || isLNULL a)) then 1 else 0))

/-- `LP_isNull` (`isNull?`): 1 exactly when the argument is an empty
`LList`. -/
def LP_isNull (args : List LVal) : PRes :=
  match args with
  | [arg1] => .ok (.int (bif isEmptyL arg1 then 1 else 0))
  | _ => .error (.runtimeErr "1 argument expected.")

/-! ## The evaluator (`LypsInterpreter._lEval` and the special forms)

The interpreter state is the environment chain plus the one
process-wide `INSIDE_BACKQUOTE` flag (a `nonlocal` of
`constructPrimitives`).  Recursion is fuelled: every recursive call
consumes one unit, and running out yields the artificial
`fuelExhausted` error (Python would instead loop or exhaust its
stack).  On the Python error path `LP_backquote` resets the flag in a
`finally` block before re-raising; `Except.error` carries no state, so
no theorem below inspects state after an error. -/

/-- Evaluator state: the environment chain and the backquote flag. -/
structure EvalSt where
  env : Env
  insideBq : Bool
deriving DecidableEq, Repr

/-- Evaluator result. -/
abbrev Res := Except PErr (LVal × EvalSt)

/-- The `stdEvalOrd` flag of each primitive in `constructPrimitives`:
`false` (special forms receiving raw argument forms) exactly for the
primitives constructed with `standardEvalOrder=False`. -/
def primStdOrd : String → Bool
  | "DEFUN!" => false
  | "DEFUN!!" => false
  | "DEFMACRO!!" => false
  | "LAM" => false
  | "BLOCK" => false
  | "IF" => false
  | "COND" => false
  | "CASE" => false
  | "QUOTE" => false
  | "BACKQUOTE" => false
  | "COMMA" => false
  | "COMMA-AT" => false
  | "WHILE" => false
  | "MAP" => false
  | _ => true

mutual

/-- `LypsInterpreter._lEval`, on the modelled value kinds: atoms
evaluate to themselves; a symbol to its binding, or to itself when the
chain returns `None`; an empty list to a fresh empty list; a non-empty
list is a combination whose head must be a symbol or list evaluating
to a callable, applied per its `stdEvalOrd` flag; a primitive object
used as an expression falls through to the
`Unknown lyps expression type.` error (the Python `isinstance` ladder
has no case for it). -/
def lEval : Nat → EvalSt → LVal → Res
  | 0, _, _ => .error .fuelExhausted
  | _ + 1, st, .int n => .ok (.int n, st)
  | _ + 1, st, .frac q => .ok (.frac q, st)
  | _ + 1, st, .flt f => .ok (.flt f, st)
  | _ + 1, st, .str s => .ok (.str s, st)
  | _ + 1, st, .sym s =>
      match getValue st.env s with
      | none => .ok (.sym s, st)
      | some v => .ok (v, st)
  | n + 1, st, .list _ els =>
      match els with
      | [] => .ok (.list false [], st)
      | primary :: exprArgs =>
          match primary with
          | .sym _ => lEvalComb n st primary exprArgs
          | .list _ _ => lEvalComb n st primary exprArgs
          | _ => .error (.runtimeErr
              "Badly formed list expression.  The first element should be a symbol or function.")
  | _ + 1, _, .prim _ => .error (.runtimeErr "Unknown lyps expression type.")

/-- The combination case of `_lEval`: evaluate the head, require a
callable, then dispatch on `stdEvalOrd`. -/
def lEvalComb : Nat → EvalSt → LVal → List LVal → Res
  | 0, _, _, _ => .error .fuelExhausted
  | n + 1, st, primary, exprArgs => do
      let (fnDef, st1) ← lEval n st primary
      match fnDef with
      | .prim name =>
          if primStdOrd name then do
            let (vals, st2) ← lEvalArgs n st1 exprArgs
            applyPrim n name st2 vals
          else
            applyPrim n name st1 exprArgs
      | _ => .error (.runtimeErr
          "Badly formed list expression.  The first element should evaluate to a primitive or function.")

/-- Left-to-right evaluation of the argument forms of a standard-order
call. -/
def lEvalArgs : Nat → EvalSt → List LVal → Except PErr (List LVal × EvalSt)
  | 0, _, _ => .error .fuelExhausted
  | _ + 1, st, [] => .ok ([], st)
  | n + 1, st, e :: es => do
      let (v, st1) ← lEval n st e
      let (vs, st2) ← lEvalArgs n st1 es
      .ok (v :: vs, st2)

/-- The primitive registry: dispatch a primitive by its table name.
Primitives no claim exercises are left out of the model and mapped to
a distinguished error. -/
def applyPrim : Nat → String → EvalSt → List LVal → Res
  | 0, _, _, _ => .error .fuelExhausted
  | n + 1, name, st, args =>
      match name with
      | "DEF!" => do
          let (v, env) ← LP_defLocal st.env args
          .ok (v, ⟨env, st.insideBq⟩)
      | "UNDEF!" => do
          let (v, env) ← LP_undef st.env args
          .ok (v, ⟨env, st.insideBq⟩)
      | "QUOTE" => do
          .ok (← LP_quote args, st)
      | "BLOCK" => LP_block n st args
      | "BACKQUOTE" => LP_backquote n st args
      | "COMMA" => LP_comma n st args
      | "COMMA-AT" => LP_comma_at n st args
      | "EVAL" => LP_eval n st args
      | "LIST" => do .ok (← LP_list args, st)
      | "FIRST" => do .ok (← LP_first args, st)
      | "REST" => do .ok (← LP_rest args, st)
      | "CONS" => do .ok (← LP_cons args, st)
      | "+" => do .ok (← LP_add args, st)
      | "-" => do .ok (← LP_sub args, st)
      | "*" => do .ok (← LP_mul args, st)
      | "/" => do .ok (← LP_div args, st)
      | "//" => do .ok (← LP_intdiv args, st)
      | "MOD" => do .ok (← LP_moddiv args, st)
      | "=" => do .ok (← LP_equal args, st)
      | "<>" => do .ok (← LP_notEqual args, st)
      | "NOT" => do .ok (← LP_not args, st)
      | "AND" => do .ok (← LP_and args, st)
      | "OR" => do .ok (← LP_or args, st)
      | "ISNULL?" => do .ok (← LP_isNull args, st)
      | _ => .error (.runtimeErr "primitive not modelled")

/-- `LP_block` (`block`): open a child scope, evaluate the expression
forms in order (last result starts as `LNULL`), close the scope, and
return the last result. -/
def LP_block : Nat → EvalSt → List LVal → Res
  | 0, _, _ => .error .fuelExhausted
  | n + 1, st, args =>
      if args.length < 1 then
        .error (.runtimeErr "1 or more arguments expected.")
      else do
        let (v, st1) ← evalSeq n ⟨[] :: st.env, st.insideBq⟩ (.list true []) args
        .ok (v, ⟨st1.env.tail, st1.insideBq⟩)

/-- The body loop of `LP_block`: evaluate each form, keeping the last
result. -/
def evalSeq : Nat → EvalSt → LVal → List LVal → Res
  | 0, _, _, _ => .error .fuelExhausted
  | _ + 1, st, last, [] => .ok (last, st)
  | n + 1, st, _, e :: es => do
      let (v, st1) ← lEval n st e
      evalSeq n st1 v es

/-- `LP_backquote` (`backquote`): one raw argument; nesting is refused
via the `INSIDE_BACKQUOTE` flag, which is set around the expansion and
reset afterwards. -/
def LP_backquote : Nat → EvalSt → List LVal → Res
  | 0, _, _ => .error .fuelExhausted
  | n + 1, st, args =>
      match args with
      | [e] =>
          if st.insideBq then
            .error (.runtimeErr "Cannot nest backquotes.")
          else
            match backquote_expand n ⟨st.env, true⟩ e with
            | .ok (v, st1) => .ok (v, ⟨st1.env, false⟩)
            | .error er => .error er
      | _ => .error (.runtimeErr "1 argument exptected.")

/-- `LP_comma` (`comma`): one raw argument, legal only inside a
backquote; evaluates it. -/
def LP_comma : Nat → EvalSt → List LVal → Res
  | 0, _, _ => .error .fuelExhausted
  | n + 1, st, args =>
      match args with
      | [e] =>
          if !st.insideBq then
            .error (.runtimeErr "COMMA can only occur inside a BACKQUOTE.")
          else lEval n st e
      | _ => .error (.runtimeErr "1 argument exptected.")

/-- `LP_comma_at` (`comma-at`): byte-for-byte the behaviour of
`LP_comma` — one raw argument, legal only inside a backquote,
evaluated and returned as a single value; nothing splices the result. -/
def LP_comma_at : Nat → EvalSt → List LVal → Res
  | 0, _, _ => .error .fuelExhausted
  | n + 1, st, args =>
      match args with
      | [e] =>
          if !st.insideBq then
            .error (.runtimeErr "COMMA-AT can only occur inside a BACKQUOTE.")
          else lEval n st e
      | _ => .error (.runtimeErr "1 argument exptected.")

/-- `LP_eval` (`eval`): evaluate the (already evaluated) argument once
more. -/
def LP_eval : Nat → EvalSt → List LVal → Res
  | 0, _, _ => .error .fuelExhausted
  | n + 1, st, args =>
      match args with
      | [e] => lEval n st e
      | _ => .error (.runtimeErr "1 argument exptected.")

/-- `LypsInterpreter.backquote_expand`: a non-list is returned
unchanged; an empty list gives a fresh empty list; a list headed by
the symbol `COMMA` or `COMMA-AT` (Python `==` on the head) is handed
to `_lEval` whole; any other list is rebuilt from the expansion of its
elements — each expanded element, including the value of a `COMMA-AT`
sub-list, is appended as a single element. -/
def backquote_expand : Nat → EvalSt → LVal → Res
  | 0, _, _ => .error .fuelExhausted
  | n + 1, st, expr =>
      match expr with
      | .list c els =>
          match els with
          | [] => .ok (.list false [], st)
          | primary :: _ =>
              if pyEq primary (.sym "COMMA") || pyEq primary (.sym "COMMA-AT") then
                lEval n st (.list c els)
              else do
                let (rs, st1) ← backquote_expandList n st els
                .ok (.list false rs, st1)
      | _ => .ok (expr, st)

/-- Elementwise `backquote_expand` over the members of a list. -/
def backquote_expandList : Nat → EvalSt → List LVal → Except PErr (List LVal × EvalSt)
  | 0, _, _ => .error .fuelExhausted
  | _ + 1, st, [] => .ok ([], st)
  | n + 1, st, e :: es => do
      let (r, st1) ← backquote_expand n st e
      let (rs, st2) ← backquote_expandList n st1 es
      .ok (r :: rs, st2)

end

/-! ## The factory global frame

`constructPrimitives` fills the global dict in source order: `NULL`
and the float constants first, then every primitive in definition
order.  `math.pi` and `math.e` are the binary64 doubles closest to π
and e; their exact rational values are spelled out. -/

/-- The exact rational value of the binary64 double `math.pi`. -/
def mathPi : ℚ := 884279719003555 / 281474976710656

/-- The exact rational value of the binary64 double `math.e`. -/
def mathE : ℚ := 6121026514868073 / 2251799813685248

set_option maxHeartbeats 1000000 in
/-- The factory global frame built by `constructPrimitives`, in source
order.  Primitive values are their registry names; `applyPrim` gives
the modelled subset behaviour. -/
def stdFrame : Frame :=
  [ ("NULL", .list true []),
    ("PI", .flt (.fin mathPi)),
    ("E", .flt (.fin mathE)),
    ("INF", .flt .pinf),
    ("-INF", .flt .ninf),
    ("NAN", .flt .nan),
    ("DEF!", .prim "DEF!"),
    ("DEF!!", .prim "DEF!!"),
    ("DEFUN!", .prim "DEFUN!"),
    ("DEFUN!!", .prim "DEFUN!!"),
    ("DEFMACRO!!", .prim "DEFMACRO!!"),
    ("SET!", .prim "SET!"),
    ("UNDEF!", .prim "UNDEF!"),
    ("SYMTAB!", .prim "SYMTAB!"),
    ("LAM", .prim "LAM"),
    ("BLOCK", .prim "BLOCK"),
    ("IF", .prim "IF"),
    ("COND", .prim "COND"),
    ("CASE", .prim "CASE"),
    ("QUOTE", .prim "QUOTE"),
    ("BACKQUOTE", .prim "BACKQUOTE"),
    ("COMMA", .prim "COMMA"),
    ("COMMA-AT", .prim "COMMA-AT"),
    ("WHILE", .prim "WHILE"),
    ("EVAL", .prim "EVAL"),
    ("PARSE", .prim "PARSE"),
    ("PPRINT", .prim "PPRINT"),
    ("LIST", .prim "LIST"),
    ("FIRST", .prim "FIRST"),
    ("REST", .prim "REST"),
    ("CONS", .prim "CONS"),
    ("PUSH!", .prim "PUSH!"),
    ("POP!", .prim "POP!"),
    ("AT", .prim "AT"),
    ("ATSET!", .prim "ATSET!"),
    ("JOIN", .prim "JOIN"),
    ("HASVALUE?", .prim "HASVALUE?"),
    ("MAP", .prim "MAP"),
    ("UPDATE!", .prim "UPDATE!"),
    ("HASKEY?", .prim "HASKEY?"),
    ("+", .prim "+"),
    ("-", .prim "-"),
    ("*", .prim "*"),
    ("/", .prim "/"),
    ("//", .prim "//"),
    ("MOD", .prim "MOD"),
    ("TRUNC", .prim "TRUNC"),
    ("ABS", .prim "ABS"),
    ("LOG", .prim "LOG"),
    ("POW", .prim "POW"),
    ("SIN", .prim "SIN"),
    ("COS", .prim "COS"),
    ("TAN", .prim "TAN"),
    ("EXP", .prim "EXP"),
    ("MIN", .prim "MIN"),
    ("MAX", .prim "MAX"),
    ("ISNULL?", .prim "ISNULL?"),
    ("ISNUMBER?", .prim "ISNUMBER?"),
    ("ISSYMBOL?", .prim "ISSYMBOL?"),
    ("ISATOM?", .prim "ISATOM?"),
    ("ISLIST?", .prim "ISLIST?"),
    ("ISMAP?", .prim "ISMAP?"),
    ("ISSTRING?", .prim "ISSTRING?"),
    ("ISFUNCTION?", .prim "ISFUNCTION?"),
    ("IS?", .prim "IS?"),
    ("=", .prim "="),
    ("<>", .prim "<>"),
    ("<", .prim "<"),
    ("<=", .prim "<="),
    (">", .prim ">"),
    (">=", .prim ">="),
    ("NOT", .prim "NOT"),
    ("AND", .prim "AND"),
    ("OR", .prim "OR"),
    ("FLOAT", .prim "FLOAT"),
    ("STRING", .prim "STRING"),
    ("WRITE!", .prim "WRITE!"),
    ("WRITELN!", .prim "WRITELN!"),
    ("READLN!", .prim "READLN!") ]

/-- A fresh interpreter: the chain holds only the global frame, and no
backquote is active. -/
def stdSt : EvalSt := ⟨[stdFrame], false⟩

/-! ## Small-step unfolding lemmas

One `rfl` lemma per evaluator transition, used to compute symbolically
when the environment is a variable. -/

theorem exbind_ok {α β : Type} (x : α) (f : α → Except PErr β) :
    (Except.ok x >>= f) = f x := rfl

theorem lEval_int (n : Nat) (st : EvalSt) (k : ℤ) :
    lEval (n + 1) st (.int k) = .ok (.int k, st) := rfl

theorem lEval_frac (n : Nat) (st : EvalSt) (q : ℚ) :
    lEval (n + 1) st (.frac q) = .ok (.frac q, st) := rfl

theorem lEval_flt (n : Nat) (st : EvalSt) (f : PFloat) :
    lEval (n + 1) st (.flt f) = .ok (.flt f, st) := rfl

theorem lEval_str (n : Nat) (st : EvalSt) (s : String) :
    lEval (n + 1) st (.str s) = .ok (.str s, st) := rfl

theorem lEval_emptyList (n : Nat) (st : EvalSt) (c : Bool) :
    lEval (n + 1) st (.list c []) = .ok (.list false [], st) := rfl

theorem lEval_sym_some (n : Nat) (env : Env) (bq : Bool) (s : String) (v : LVal)
    (h : getValue env s = some v) :
    lEval (n + 1) ⟨env, bq⟩ (.sym s) = .ok (v, ⟨env, bq⟩) := by
  simp only [lEval, h]

theorem lEval_sym_none (n : Nat) (env : Env) (bq : Bool) (s : String)
    (h : getValue env s = none) :
    lEval (n + 1) ⟨env, bq⟩ (.sym s) = .ok (.sym s, ⟨env, bq⟩) := by
  simp only [lEval, h]

theorem lEval_comb (n : Nat) (st : EvalSt) (c : Bool) (s : String)
    (as_ : List LVal) :
    lEval (n + 1) st (.list c (.sym s :: as_)) = lEvalComb n st (.sym s) as_ := rfl

theorem lEvalComb_prim_nonstd (name : String) (n : Nat) (st st1 : EvalSt)
    (p : LVal) (as_ : List LVal)
    (h : lEval n st p = .ok (.prim name, st1))
    (hord : primStdOrd name = false) :
    lEvalComb (n + 1) st p as_ = applyPrim n name st1 as_ := by
  simp only [lEvalComb, h, exbind_ok, hord]
  rfl

theorem lEvalComb_prim_std (name : String) (n : Nat) (st st1 : EvalSt)
    (p : LVal) (as_ : List LVal)
    (h : lEval n st p = .ok (.prim name, st1))
    (hord : primStdOrd name = true) :
    lEvalComb (n + 1) st p as_
      = (lEvalArgs n st1 as_ >>= fun r => applyPrim n name r.2 r.1) := by
  simp only [lEvalComb, h, exbind_ok, hord]
  rfl

theorem getValue_cons_nil (env : Env) (key : String) :
    getValue ([] :: env) key = getValue env key := rfl

theorem applyPrim_BLOCK (n : Nat) (st : EvalSt) (args : List LVal) :
    applyPrim (n + 1) "BLOCK" st args = LP_block n st args := rfl

theorem applyPrim_QUOTE (n : Nat) (st : EvalSt) (args : List LVal) :
    applyPrim (n + 1) "QUOTE" st args
      = (LP_quote args >>= fun v => .ok (v, st)) := rfl

theorem applyPrim_DEF (n : Nat) (st : EvalSt) (args : List LVal) :
    applyPrim (n + 1) "DEF!" st args
      = (LP_defLocal st.env args >>= fun r => .ok (r.1, ⟨r.2, st.insideBq⟩)) := rfl

theorem LP_block_cons (n : Nat) (st : EvalSt) (a : LVal) (as_ : List LVal) :
    LP_block (n + 1) st (a :: as_)
      = (evalSeq n ⟨[] :: st.env, st.insideBq⟩ (.list true []) (a :: as_)
          >>= fun r => .ok (r.1, ⟨r.2.env.tail, r.2.insideBq⟩)) := rfl

theorem evalSeq_cons (n : Nat) (st : EvalSt) (last e : LVal) (es : List LVal) :
    evalSeq (n + 1) st last (e :: es)
      = (lEval n st e >>= fun r => evalSeq n r.2 r.1 es) := rfl

theorem evalSeq_nil (n : Nat) (st : EvalSt) (last : LVal) :
    evalSeq (n + 1) st last [] = .ok (last, st) := rfl

theorem lEvalArgs_cons (n : Nat) (st : EvalSt) (e : LVal) (es : List LVal) :
    lEvalArgs (n + 1) st (e :: es)
      = (lEval n st e >>= fun r =>
          lEvalArgs n r.2 es >>= fun rs => .ok (r.1 :: rs.1, rs.2)) := rfl

theorem lEvalArgs_nil (n : Nat) (st : EvalSt) :
    lEvalArgs (n + 1) st [] = .ok ([], st) := rfl

/-! ## Spec-side predicates

The next definitions transcribe wording of the (amended) claims, not
source code; the claim theorems compare them with the transliterated
primitives. -/

/-- A value is numerically equal to zero: its numeric reading is the
exact rational 0 (true of the integer 0, the float 0.0 and the
rational 0; false of nan, strings, symbols, lists). -/
def numZero (v : LVal) : Bool :=
  match numVal v with
  | some (.q x) => x == 0
  | _ => false

/-- The `L_ATOM` test of the source: Python int, Fraction, float or
str. -/
def isAtomB : LVal → Bool
  | .int _ => true
  | .frac _ => true
  | .flt _ => true
  | .str _ => true
  | _ => false

mutual

/-- No float nan occurs anywhere in the value. -/
def noNanB : LVal → Bool
  | .flt .nan => false
  | .list _ els => noNanListB els
  | _ => true

/-- No float nan occurs in any member of the list. -/
def noNanListB : List LVal → Bool
  | [] => true
  | x :: xs => noNanB x && noNanListB xs

end

mutual

/-- Python `==` is reflexive on every value containing no nan. -/
theorem pyEq_refl : ∀ a, noNanB a = true → pyEq a a = true
  | .int _, _ => by simp [pyEq, numVal, numEq]
  | .frac _, _ => by simp [pyEq, numVal, numEq]
  | .flt f, h => by
      cases f <;> simp_all [pyEq, numVal, numEq, noNanB]
  | .str _, _ => by simp [pyEq]
  | .sym _, _ => by simp [pyEq]
  | .prim _, _ => by simp [pyEq]
  | .list _ xs, h => by
      simp only [noNanB] at h
      simp [pyEq, pyEqList_refl xs h]

/-- `LList.__eq__` is reflexive on nan-free member lists. -/
theorem pyEqList_refl : ∀ xs, noNanListB xs = true → pyEqList xs xs = true
  | [], _ => rfl
  | x :: xs, h => by
      simp only [noNanListB, Bool.and_eq_true] at h
      simp [pyEqList, pyEq_refl x h.1, pyEqList_refl xs h.2]

end

/-- Python `arg == 0` is exactly the numerically-zero test. -/
theorem pyEq_zero : ∀ v, pyEq v (.int 0) = numZero v := by
  intro v
  cases v with
  | flt f => cases f <;> simp [pyEq, numVal, numEq, numZero]
  | _ => simp [pyEq, numVal, numEq, numZero]

/-! ## The claims -/

/-- C1 counterexample: evaluating `(/ 5 2)` in a fresh interpreter does
not return a rational — `LP_div` is Python true division, and int / int
is the float 2.5, so the claimed output `5/2` (a `Fraction`) is wrong. -/
theorem C1_counterexample :
    lEval 10 stdSt (.list false [.sym "/", .int 5, .int 2])
      = .ok (.flt (.fin (5 / 2)), stdSt)
    ∧ isFrac (.flt (.fin (5 / 2))) = false := ⟨rfl, rfl⟩

/-- C1 (amended): the division primitive applied to the integers 5 and
2 returns the float 2.5 (Python true division; exactly representable,
so the exact model is the IEEE value), both at the primitive and
through a full evaluation of `(/ 5 2)`; it does not return an exact
rational. -/
theorem C1_theorem :
    LP_div [.int 5, .int 2] = .ok (.flt (.fin (5 / 2)))
    ∧ lEval 10 stdSt (.list false [.sym "/", .int 5, .int 2])
      = .ok (.flt (.fin (5 / 2)), stdSt) := ⟨rfl, rfl⟩

/-- C2 counterexample: reflexivity of `=` / `<>` fails at the float
nan — `(= NAN NAN)` is 0 and `(<> NAN NAN)` is 1, because Python `==`
is false on nan. -/
theorem C2_counterexample :
    LP_equal [.flt .nan, .flt .nan] = .ok (.int 0)
    ∧ LP_notEqual [.flt .nan, .flt .nan] = .ok (.int 1)
    ∧ lEval 10 stdSt (.list false [.sym "=", .sym "NAN", .sym "NAN"])
      = .ok (.int 0, stdSt) := ⟨rfl, rfl, rfl⟩

/-- C2 (amended): for every value `a` in which no float nan occurs,
`(= a a)` returns the integer 1 and `(<> a a)` returns the integer 0;
reflexivity fails exactly on values containing nan. -/
theorem C2_theorem (a : LVal) (h : noNanB a = true) :
    LP_equal [a, a] = .ok (.int 1)
    ∧ LP_notEqual [a, a] = .ok (.int 0) := by
  have hr := pyEq_refl a h
  constructor
  · simp [LP_equal, chainAll, hr]
  · simp [LP_notEqual, chainAll, pyNe, hr]

/-- C2 witness: the amended reflexivity at the concrete nan-free value
`(1 "a")`. -/
theorem C2_witness :
    noNanB (.list false [.int 1, .str "a"]) = true
    ∧ (LP_equal [.list false [.int 1, .str "a"], .list false [.int 1, .str "a"]]
        = .ok (.int 1)
      ∧ LP_notEqual [.list false [.int 1, .str "a"], .list false [.int 1, .str "a"]]
        = .ok (.int 0)) :=
  ⟨rfl, C2_theorem (.list false [.int 1, .str "a"]) rfl⟩

/-- C3 counterexample: the claimed truthiness rule fails — `not` maps
the float 0.0 to 1 (Python `0.0 == 0` holds, so `not` treats it as
false), `and` treats 0.0 as false, and `or` treats a fresh
(non-canonical) empty list as true, since it only tests identity with
the interned `LNULL` object. -/
theorem C3_counterexample :
    LP_not [.flt (.fin 0)] = .ok (.int 1)
    ∧ LP_and [.flt (.fin 0), .int 1] = .ok (.int 0)
    ∧ LP_or [.list false [], .list false []] = .ok (.int 1) := ⟨rfl, rfl, rfl⟩

/-- C3 (amended): `not`, `and`, `or` return 0/1, but with these rules:
`not` treats a value as false iff it is numerically equal to zero (the
integer 0, the float 0.0, the rational 0) or is any empty list;
`and` and `or` treat a value as false iff it is numerically equal to
zero or is the interned `LNULL` object itself (a non-canonical empty
list counts as true there). -/
theorem C3_theorem (v w : LVal) :
    LP_not [v] = .ok (.int (bif numZero v || isEmptyL v then 1 else 0))
    ∧ LP_and [v, w]
        = .ok (.int (bif (numZero v || isLNULL v) || (numZero w || isLNULL w)
            then 0 else 1))
    ∧ LP_or [v, w]
        = .ok (.int (bif !(numZero v || isLNULL v) || !(numZero w || isLNULL w)
            then 1 else 0)) := by
  refine ⟨?_, ?_, ?_⟩ <;>
    simp [LP_not, LP_and, LP_or, pyEq_zero, List.any_cons, List.any_nil]

/-- C4: the failing input — `X` bound to 42 in the innermost frame,
then `(undef! (quote X))`.  `LP_undef` binds `key = args`, the whole
argument tuple, so it deletes the key `"(X,)"` instead of `"X"`: the
environment chain comes back unchanged and `X` is still bound, both at
the primitive and through a full evaluation. -/
theorem C4_theorem :
    LP_undef [[("X", .int 42)]] [.sym "X"]
      = .ok (.list true [], [[("X", .int 42)]])
    ∧ lEval 10 ⟨[[("X", .int 42)], stdFrame], false⟩
        (.list false [.sym "UNDEF!", .list false [.sym "QUOTE", .sym "X"]])
      = .ok (.list true [], ⟨[[("X", .int 42)], stdFrame], false⟩)
    ∧ getValue [[("X", .int 42)], stdFrame] "X" = some (.int 42) := ⟨rfl, rfl, rfl⟩

/-- C5 counterexample: expanding
`(backquote (A (comma-at (quote (1 2)))))` in a fresh interpreter
returns `(A (1 2))` — the evaluated list is inserted as one element —
and not the spliced `(A 1 2)` the claim requires. -/
theorem C5_counterexample :
    lEval 20 stdSt (.list false [.sym "BACKQUOTE",
        .list false [.sym "A",
          .list false [.sym "COMMA-AT",
            .list false [.sym "QUOTE", .list false [.int 1, .int 2]]]]])
      = .ok (.list false [.sym "A", .list false [.int 1, .int 2]], stdSt)
    ∧ (.list false [.sym "A", .list false [.int 1, .int 2]] : LVal)
        ≠ .list false [.sym "A", .int 1, .int 2] := ⟨rfl, by decide⟩

/-- C5 (amended): during backquote expansion a `COMMA-AT` sub-list is
evaluated and its value inserted as a single element of the
surrounding list, exactly as for `COMMA`: with the backquote flag set,
the `COMMA` and `COMMA-AT` primitives are the same function of their
single argument. -/
theorem C5_theorem (n : Nat) (st : EvalSt) (e : LVal) (h : st.insideBq = true) :
    applyPrim n "COMMA" st [e] = applyPrim n "COMMA-AT" st [e] := by
  match n with
  | 0 => rfl
  | n + 1 =>
    show LP_comma n st [e] = LP_comma_at n st [e]
    match n with
    | 0 => rfl
    | m + 1 => simp [LP_comma, LP_comma_at, h]

/-- C5 witness: the comma / comma-at agreement at a concrete state and
argument. -/
theorem C5_witness :
    (⟨[stdFrame], true⟩ : EvalSt).insideBq = true
    ∧ applyPrim 5 "COMMA" ⟨[stdFrame], true⟩ [.int 3]
        = applyPrim 5 "COMMA-AT" ⟨[stdFrame], true⟩ [.int 3] :=
  ⟨rfl, C5_theorem 5 ⟨[stdFrame], true⟩ (.int 3) rfl⟩

/-- C6 counterexample: with `X` bound to the symbol `Y` and `Y` bound
to 5, evaluating `X` gives `Y` but evaluating that result again gives
5 — `eval (eval X) ≠ eval X`, although the symbol `X` is not a
combination. -/
theorem C6_counterexample :
    lEval 2 ⟨[[("X", .sym "Y"), ("Y", .int 5)]], false⟩ (.sym "X")
      = .ok (.sym "Y", ⟨[[("X", .sym "Y"), ("Y", .int 5)]], false⟩)
    ∧ lEval 2 ⟨[[("X", .sym "Y"), ("Y", .int 5)]], false⟩ (.sym "Y")
      = .ok (.int 5, ⟨[[("X", .sym "Y"), ("Y", .int 5)]], false⟩)
    ∧ (.int 5 : LVal) ≠ .sym "Y" := ⟨rfl, rfl, by decide⟩

/-- Spec-side: a value of a kind that always evaluates to itself — an
atom or an empty list. -/
def selfEvalKind (v : LVal) : Prop :=
  isAtomB v = true ∨ ∃ c, v = .list c []

/-- Spec-side: a lookup result that leaves a symbol idempotent — no
binding, or a binding of self-evaluating kind. -/
def bindingSelfEval : Option LVal → Prop
  | none => True
  | some w => selfEvalKind w

/-- C6 (amended): a symbol evaluates to its bound value when bound and
to itself when unbound; and `eval (eval v)` agrees with `eval v` (the
same value, up to both being empty lists, which the evaluator copies
afresh) for every `v` that is an atom, an empty list, or a symbol that
is unbound or bound to an atom or an empty list.  Symbols bound to
symbols or to non-empty lists are counterexamples to the unrestricted
claim. -/
theorem C6_theorem :
    (∀ (st : EvalSt) (s : String),
        lEval 2 st (.sym s) = .ok ((getValue st.env s).getD (.sym s), st))
    ∧ ∀ (st : EvalSt) (v : LVal),
        (selfEvalKind v ∨ ∃ s, v = .sym s ∧ bindingSelfEval (getValue st.env s)) →
        ∃ r r', lEval 2 st v = .ok (r, st) ∧ lEval 2 st r = .ok (r', st)
          ∧ (r' = r ∨ (isEmptyL r' = true ∧ isEmptyL r = true)) := by
  refine ⟨?_, ?_⟩
  · intro st s
    cases hgs : getValue st.env s <;> simp [lEval, hgs]
  · intro st v h
    rcases h with hk | ⟨s, rfl, hb⟩
    · rcases hk with ha | ⟨c, rfl⟩
      · cases v with
        | int n => exact ⟨.int n, .int n, rfl, rfl, Or.inl rfl⟩
        | frac q => exact ⟨.frac q, .frac q, rfl, rfl, Or.inl rfl⟩
        | flt f => exact ⟨.flt f, .flt f, rfl, rfl, Or.inl rfl⟩
        | str t => exact ⟨.str t, .str t, rfl, rfl, Or.inl rfl⟩
        | sym t => simp [isAtomB] at ha
        | list c es => simp [isAtomB] at ha
        | prim p => simp [isAtomB] at ha
      · exact ⟨.list false [], .list false [], rfl, rfl, Or.inl rfl⟩
    · cases hgs : getValue st.env s with
      | none =>
          refine ⟨.sym s, .sym s, ?_, ?_, Or.inl rfl⟩ <;> simp [lEval, hgs]
      | some w =>
          have h1 : lEval 2 st (.sym s) = .ok (w, st) := by simp [lEval, hgs]
          rw [hgs] at hb
          simp only [bindingSelfEval] at hb
          rcases hb with ha | ⟨c, rfl⟩
          · cases w with
            | int n => exact ⟨.int n, .int n, h1, rfl, Or.inl rfl⟩
            | frac q => exact ⟨.frac q, .frac q, h1, rfl, Or.inl rfl⟩
            | flt f => exact ⟨.flt f, .flt f, h1, rfl, Or.inl rfl⟩
            | str t => exact ⟨.str t, .str t, h1, rfl, Or.inl rfl⟩
            | sym t => simp [isAtomB] at ha
            | list c es => simp [isAtomB] at ha
            | prim p => simp [isAtomB] at ha
          · exact ⟨.list c [], .list false [], h1, rfl, Or.inr ⟨rfl, rfl⟩⟩

/-- C6 witness: the idempotence clause applied at the atom 7 in a
fresh interpreter. -/
theorem C6_witness :
    ∃ r r', lEval 2 stdSt (.int 7) = .ok (r, stdSt)
      ∧ lEval 2 stdSt r = .ok (r', stdSt)
      ∧ (r' = r ∨ (isEmptyL r' = true ∧ isEmptyL r = true)) :=
  C6_theorem.2 stdSt (.int 7) (Or.inl (Or.inl rfl))

/-- C7: `cons` copies its list argument and prepends, so
`first (cons x L) = x` and `rest (cons x L)` is a fresh list with
exactly the elements of `L` (structural equality with `L`; the
argument list itself is untouched, the model of `LList.copy`). -/
theorem C7_theorem (x : LVal) (c : Bool) (es : List LVal) :
    LP_cons [x, .list c es] = .ok (.list false (x :: es))
    ∧ (LP_cons [x, .list c es] >>= fun r => LP_first [r]) = .ok x
    ∧ (LP_cons [x, .list c es] >>= fun r => LP_rest [r]) = .ok (.list false es) := by
  refine ⟨rfl, rfl, ?_⟩
  cases es with
  | nil => rfl
  | cons y ys => rfl

/-- C8: the integer division pair — for integers `a`, `b` with
`b ≠ 0`, `(+ (* (// a b) b) (mod a b))` evaluates to `a` (Python `//`
floors toward minus infinity and `mod` takes the sign of the
divisor). -/
theorem C8_theorem (a b : ℤ) (hb : b ≠ 0) :
    (LP_intdiv [.int a, .int b] >>= fun q =>
      LP_mul [q, .int b] >>= fun p =>
        LP_moddiv [.int a, .int b] >>= fun r => LP_add [p, r])
      = .ok (.int a) := by
  simp [LP_intdiv, pyFloorDiv, hb, LP_mul, pyReduce, pyFoldl, pyMul, numOf,
    ntagJoin, mkNum, LP_moddiv, pyMod, LP_add, pySum, pyAdd, exbind_ok]
  have hx : ((a.fdiv b : ℚ) * (b : ℚ)) = ((a.fdiv b * b : ℤ) : ℚ) := by
    push_cast
    ring
  rw [hx, Rat.intCast_num, ← Int.cast_add, Rat.intCast_num,
    Int.mul_comm (a.fdiv b) b]
  exact Int.fdiv_add_fmod a b

/-- C8 witness: the division pair identity at 7 and 3. -/
theorem C8_witness :
    (3 : ℤ) ≠ 0
    ∧ (LP_intdiv [.int 7, .int 3] >>= fun q =>
        LP_mul [q, .int 3] >>= fun p =>
          LP_moddiv [.int 7, .int 3] >>= fun r => LP_add [p, r])
        = .ok (.int 7) :=
  ⟨by decide, C8_theorem 7 3 (by decide)⟩

/-- C9: evaluating `(block (def! (quote s) k))` in any environment
chain that has the three special forms bound and `s` unbound returns
`k` with the chain unchanged — the child frame holding the `def!`
binding is discarded on return — and `s` still evaluates to itself
afterwards. -/
theorem C9_theorem (env : Env) (s : String) (k : ℤ) (bq : Bool)
    (hB : getValue env "BLOCK" = some (.prim "BLOCK"))
    (hD : getValue env "DEF!" = some (.prim "DEF!"))
    (hQ : getValue env "QUOTE" = some (.prim "QUOTE"))
    (hs : getValue env s = none) :
    lEval 12 ⟨env, bq⟩
      (.list false [.sym "BLOCK",
        .list false [.sym "DEF!", .list false [.sym "QUOTE", .sym s], .int k]])
      = .ok (.int k, ⟨env, bq⟩)
    ∧ lEval 2 ⟨env, bq⟩ (.sym s) = .ok (.sym s, ⟨env, bq⟩) := by
  have hD2 : getValue ([] :: env) "DEF!" = some (.prim "DEF!") := hD
  have hQ2 : getValue ([] :: env) "QUOTE" = some (.prim "QUOTE") := hQ
  constructor
  · rw [lEval_comb, lEvalComb_prim_nonstd "BLOCK" _ _ _ _ _
          (lEval_sym_some _ env bq _ _ hB) rfl,
      applyPrim_BLOCK, LP_block_cons, evalSeq_cons, lEval_comb,
      lEvalComb_prim_std "DEF!" _ _ _ _ _
          (lEval_sym_some _ ([] :: env) bq _ _ hD2) rfl,
      lEvalArgs_cons, lEval_comb,
      lEvalComb_prim_nonstd "QUOTE" _ _ _ _ _
          (lEval_sym_some _ ([] :: env) bq _ _ hQ2) rfl,
      applyPrim_QUOTE]
    simp only [LP_quote, exbind_ok, lEvalArgs_cons, lEval_int, lEvalArgs_nil,
      applyPrim_DEF, LP_defLocal, pyStr, defLocal, frameSet, evalSeq_nil,
      List.tail]
  · exact lEval_sym_none 1 env bq s hs

/-- C9 witness: the block scoping theorem in a fresh interpreter with
the unbound symbol `S` and the value 1. -/
theorem C9_witness :
    getValue [stdFrame] "BLOCK" = some (.prim "BLOCK")
    ∧ getValue [stdFrame] "DEF!" = some (.prim "DEF!")
    ∧ getValue [stdFrame] "QUOTE" = some (.prim "QUOTE")
    ∧ getValue [stdFrame] "S" = none
    ∧ (lEval 12 ⟨[stdFrame], false⟩
        (.list false [.sym "BLOCK",
          .list false [.sym "DEF!", .list false [.sym "QUOTE", .sym "S"], .int 1]])
        = .ok (.int 1, ⟨[stdFrame], false⟩)
      ∧ lEval 2 ⟨[stdFrame], false⟩ (.sym "S")
        = .ok (.sym "S", ⟨[stdFrame], false⟩)) :=
  ⟨rfl, rfl, rfl, rfl, C9_theorem [stdFrame] "S" 1 false rfl rfl rfl rfl⟩

/-- C10: `first` of an empty list returns a fresh empty list (the
`IndexError` is caught) rather than raising, and `rest` of any list
with fewer than two elements — empty or a singleton — returns a fresh
empty list rather than raising. -/
theorem C10_theorem (c : Bool) (x : LVal) :
    LP_first [.list c []] = .ok (.list false [])
    ∧ LP_rest [.list c []] = .ok (.list false [])
    ∧ LP_rest [.list c [x]] = .ok (.list false []) := ⟨rfl, rfl, rfl⟩

end Lyps
